import Mathlib


/-!
Verification of the waterfall-decomposition orchestrator (src/algo.py).

The core under verification is the orchestration algorithm of `algo.py`:
the `BaseAlgorithm` constructor, the apply-and-save step, the correction
step (`correct_facts`), dimension pruning, and the `run` loop.

Numeric values are embedded as exact rationals.  The external
collaborators imported by `algo.py` (the `AlgoBlock` aggregation, the
`out_block` row filter, `SavedBlock`, `utils.float_eq`, the `Waterfall`
container) are part of the repository but outside the core file; they are
modelled from the specification and carry a doc comment saying so.

Python's in-place mutation and exception propagation are embedded as an
explicit state value threaded through `Except`: a failure carries the
state as it stood when the assertion fired, so mutation ordering (which
fields were already updated when an exception escaped) is preserved.
-/

attribute [local semireducible] Rat.add Rat.mul Rat.inv Rat.sub

instance {e a : Type} [DecidableEq e] [DecidableEq a] : DecidableEq (Except e a) := fun x y =>
  match x, y with
  | .ok u, .ok v => decidable_of_iff (u = v) (by simp)
  | .error u, .error v => decidable_of_iff (u = v) (by simp)
  | .ok _, .error _ => isFalse (by simp)
  | .error _, .ok _ => isFalse (by simp)

/-- Modelled from the spec: a fact-table row has categorical dimension
columns and numeric measure columns holding current- and reference-period
values (the measure-catalog collaborator that picks the columns for a
margin type is out of scope, so the four aggregated measures are carried
directly). -/
structure Row where
  dims : List (String × String)
  cur_revenue : ℚ
  ref_revenue : ℚ
  cur_profit : ℚ
  ref_profit : ℚ
deriving DecidableEq

/-- Value of a dimension column in a row (missing columns read as the
empty string; the external schema validation guarantees they exist). -/
def Row.dimVal (r : Row) (d : String) : String :=
  match List.lookup d r.dims with
  | some v => v
  | none => ""

/-- Modelled from the spec: a key-set maps dimension names to values and
identifies a block's row subset; a row matches when every constrained
dimension has the required value. -/
def matches_keys (ks : List (String × String)) (r : Row) : Bool :=
  ks.all (fun kv => r.dimVal kv.1 == kv.2)

/-- Distinct values a dimension takes in a dataframe, in order of first
occurrence (embeds `df[d].unique()`). -/
def unique_values (df : List Row) (d : String) : List String :=
  (df.map (fun r => r.dimVal d)).dedup

/-- Modelled from the spec: the Global (residual) Aggregate, the block
computed over the entire current working dataframe.  The derived
contribution score's concrete formula lives in the external block
collaborator; the profit swing is used as a definite stand-in. -/
structure GlobalBlock where
  cur_revenue : ℚ
  ref_revenue : ℚ
  cur_profit : ℚ
  ref_profit : ℚ
  contrib_bps : ℚ
deriving DecidableEq

/-- Modelled from the spec: the block aggregation collaborator summed
over an entire dataframe (embeds `AlgoBlock(df, profit_meas)` with no key
restriction and no parent). -/
def make_global_block (df : List Row) : GlobalBlock :=
  { cur_revenue := (df.map Row.cur_revenue).sum
    ref_revenue := (df.map Row.ref_revenue).sum
    cur_profit := (df.map Row.cur_profit).sum
    ref_profit := (df.map Row.ref_profit).sum
    contrib_bps := (df.map Row.cur_profit).sum - (df.map Row.ref_profit).sum }

/-- Modelled from the spec: a Block, the aggregate for a key-set
evaluated against a parent aggregate over a dataframe (embeds
`AlgoBlock`).  Parents are always global aggregates in this core. -/
structure AlgoBlock where
  cur_revenue : ℚ
  ref_revenue : ℚ
  cur_profit : ℚ
  ref_profit : ℚ
  contrib_bps : ℚ
  keys : List (String × String)
  block_type : Option String
  parent : Option GlobalBlock
deriving DecidableEq

/-- Modelled from the spec: block aggregation for a key-set: the four
measures are computed over the rows of the dataframe that match the
key-set. -/
def make_block_on (df : List Row) (ks : List (String × String))
    (bt : Option String) (g : GlobalBlock) : AlgoBlock :=
  let rows := df.filter (matches_keys ks)
  { cur_revenue := (rows.map Row.cur_revenue).sum
    ref_revenue := (rows.map Row.ref_revenue).sum
    cur_profit := (rows.map Row.cur_profit).sum
    ref_profit := (rows.map Row.ref_profit).sum
    contrib_bps := (rows.map Row.cur_profit).sum - (rows.map Row.ref_profit).sum
    keys := ks
    block_type := bt
    parent := some g }

/-- Rows of a dataframe that do not match a key-set. -/
def out_keys (df : List Row) (ks : List (String × String)) : List Row :=
  df.filter (fun r => !(matches_keys ks r))

/-- Modelled from the spec: the row-filtering collaborator `out_block`:
given a dataframe and a block, the complementary dataframe (rows not
matching the block). -/
def out_block (df : List Row) (b : AlgoBlock) : List Row :=
  out_keys df b.keys

/-- Modelled from the spec: a Saved Block, an immutable copy of a Block's
fields plus a (later rescaled) contribution. -/
structure SavedBlock where
  cur_revenue : ℚ
  ref_revenue : ℚ
  cur_profit : ℚ
  ref_profit : ℚ
  contrib_bps : ℚ
  keys : List (String × String)
  block_type : Option String
deriving DecidableEq

/-- Modelled from the spec: `SavedBlock.from_block`, copying a Block's
fields. -/
def SavedBlock.from_block (b : AlgoBlock) : SavedBlock :=
  { cur_revenue := b.cur_revenue
    ref_revenue := b.ref_revenue
    cur_profit := b.cur_profit
    ref_profit := b.ref_profit
    contrib_bps := b.contrib_bps
    keys := b.keys
    block_type := b.block_type }

/-- Modelled from the spec: snapshot of the global aggregate as a Saved
Block (no key restriction, no block type). -/
def SavedBlock.fromGlobal (g : GlobalBlock) : SavedBlock :=
  { cur_revenue := g.cur_revenue
    ref_revenue := g.ref_revenue
    cur_profit := g.cur_profit
    ref_profit := g.ref_profit
    contrib_bps := g.contrib_bps
    keys := []
    block_type := none }

/-- Diagnostic record emitted by apply-and-save (embeds the `_l.info`
line of `__apply_and_save_block`: index, scaled contribution, block type,
ratio as a percentage, key-set). -/
structure LogEntry where
  index : ℤ
  contrib_bps : ℚ
  block_type : Option String
  ratio_percent : ℚ
  keys : List (String × String)
deriving DecidableEq

/-- A pre-selected block request: key-set plus block type (the `ib`
elements of `params.pre_selected_blocks`). -/
structure InputBlock where
  keys : List (String × String)
  block_type : Option String
deriving DecidableEq

/-- The recognized correction modes (`CORRECT_MODES`): only the
delete-matched-rows mode is declared. -/
def CORRECT_MODES : List String := [ "DEL" ]

/-- Validated run parameters (embeds `AlgorithmParameters` restricted to
the fields the orchestrator core reads; `input_parameters.dims` is
flattened into `dims`). -/
structure AlgorithmParameters where
  dims : List String
  pre_selected_blocks : List InputBlock
  waterfall_title : String
  max_block_number : ℕ
  correct_mode : String
deriving DecidableEq

/-- The orchestrator state: the mutable attributes of a `BaseAlgorithm`
instance (working dataframe, correction mode, parameters, cumulative
ratio, current global aggregate, its initial snapshot, live dimension
set, the two saved-block lists) plus the stream of apply-and-save
diagnostic records. -/
structure BaseAlgorithm where
  df : List Row
  correct_mode : String
  params : AlgorithmParameters
  ratio_to_initial : ℚ
  global_block : GlobalBlock
  saved_global_block : SavedBlock
  dims : List String
  pre_selected_blocks : List SavedBlock
  blocks : List SavedBlock
  blockLog : List LogEntry
deriving DecidableEq

/-- The fatal conditions the core can raise: the Python assertions, and
the `TypeError` actually produced by the unimplemented-mode branch (see
`Err.message`). -/
inductive Err where
  | assertBlockParent
  | assertConservation
  | assertPositiveRevenue
  | assertModeMember
  | assertBlocksEmpty
  | typeErrorNotImplementedNotCallable
deriving DecidableEq

/-- The Python-level message of each fatal condition.  The unimplemented
correction-mode branch executes `raise NotImplemented(...)`; since
`NotImplemented` is not callable, evaluating the raised expression
produces this `TypeError`, whose message never contains the offending
mode. -/
def Err.message : Err → String
  | .assertBlockParent => "AssertionError"
  | .assertConservation => "AssertionError"
  | .assertPositiveRevenue => "AssertionError"
  | .assertModeMember => "AssertionError"
  | .assertBlocksEmpty => "AssertionError"
  | .typeErrorNotImplementedNotCallable =>
      "TypeError: NotImplementedType object is not callable"

/-- A propagating failure: the condition plus the orchestrator state as
it stood when the exception fired (Python objects keep every mutation
made before the raise). -/
structure Failure where
  err : Err
  st : BaseAlgorithm
deriving DecidableEq

/-- Which saved-block list apply-and-save appends to (`blist` is passed
by reference in the Python code). -/
inductive TargetList where
  | preSelected
  | discovered
deriving DecidableEq

/-- The saved-block list selected by a target. -/
def targetOf (s : BaseAlgorithm) : TargetList → List SavedBlock
  | .preSelected => s.pre_selected_blocks
  | .discovered => s.blocks

/-- Append a saved block to the selected list. -/
def appendBlock (s : BaseAlgorithm) : TargetList → SavedBlock → BaseAlgorithm
  | .preSelected, sb => { s with pre_selected_blocks := s.pre_selected_blocks ++ [sb] }
  | .discovered, sb => { s with blocks := s.blocks ++ [sb] }

/-- Absolute value, written out so every check evaluates by kernel
reduction. -/
def qabs (q : ℚ) : ℚ := if q < 0 then -q else q

/-- Larger of two rationals. -/
def qmax (a b : ℚ) : ℚ := if a ≤ b then b else a

/-- Relative tolerance of the conservation checks. -/
def FLOAT_REL_TOL : ℚ := 1 / 1000000

/-- Modelled from the spec: `utils.float_eq`, equality of two floats
within relative tolerance 1e-6. -/
def float_eq (a b : ℚ) : Prop :=
  qabs (a - b) ≤ FLOAT_REL_TOL * qmax (qabs a) (qabs b)

instance (a b : ℚ) : Decidable (float_eq a b) := by
  unfold float_eq
  exact inferInstance

/-- The reduced working dataframe of a delete-mode correction step
(`next_df` in `correct_facts`). -/
def del_df (s : BaseAlgorithm) (b : AlgoBlock) : List Row :=
  out_block s.df b

/-- The new global aggregate of a delete-mode correction step
(`next_gb` in `correct_facts`). -/
def del_global (s : BaseAlgorithm) (b : AlgoBlock) : GlobalBlock :=
  make_global_block (del_df s b)

/-- The state after a successful delete-mode correction step: the
cumulative ratio is multiplied by new-over-old current revenue, and the
global aggregate and the working dataframe are replaced. -/
def del_state (s : BaseAlgorithm) (b : AlgoBlock) : BaseAlgorithm :=
  { s with
    ratio_to_initial :=
      s.ratio_to_initial * ((del_global s b).cur_revenue / s.global_block.cur_revenue)
    global_block := del_global s b
    df := del_df s b }

/-- The correction step (embeds `BaseAlgorithm.correct_facts`): the
stale-parent guard, then for the delete mode the four conservation
checks, the two strict-positivity checks, and only then the ratio update
and the replacement of the global aggregate and the working dataframe;
any other mode reaches the broken `raise NotImplemented(...)` line. -/
def correct_facts (s : BaseAlgorithm) (b : AlgoBlock) : Except Failure BaseAlgorithm :=
  if b.parent = some s.global_block then
    if s.correct_mode = "DEL" then
      if float_eq ((del_global s b).cur_revenue + b.cur_revenue) s.global_block.cur_revenue then
        if float_eq ((del_global s b).ref_revenue + b.ref_revenue) s.global_block.ref_revenue then
          if float_eq ((del_global s b).cur_profit + b.cur_profit) s.global_block.cur_profit then
            if float_eq ((del_global s b).ref_profit + b.ref_profit) s.global_block.ref_profit then
              if 0 < s.global_block.cur_revenue then
                if 0 < (del_global s b).cur_revenue then
                  .ok (del_state s b)
                else .error ⟨.assertPositiveRevenue, s⟩
              else .error ⟨.assertPositiveRevenue, s⟩
            else .error ⟨.assertConservation, s⟩
          else .error ⟨.assertConservation, s⟩
        else .error ⟨.assertConservation, s⟩
      else .error ⟨.assertConservation, s⟩
    else .error ⟨.typeErrorNotImplementedNotCallable, s⟩
  else .error ⟨.assertBlockParent, s⟩

/-- The saved snapshot built by apply-and-save: the block's fields with
the contribution rescaled by the cumulative ratio as it stands before
the correction step updates it. -/
def saved_of (s : BaseAlgorithm) (b : AlgoBlock) : SavedBlock :=
  { SavedBlock.from_block b with contrib_bps := b.contrib_bps * s.ratio_to_initial }

/-- The diagnostic record emitted by apply-and-save. -/
def entry_of (s : BaseAlgorithm) (b : AlgoBlock) (i : ℤ) : LogEntry :=
  { index := i
    contrib_bps := (saved_of s b).contrib_bps
    block_type := b.block_type
    ratio_percent := 100 * s.ratio_to_initial
    keys := b.keys }

/-- Apply-and-save (embeds `BaseAlgorithm.__apply_and_save_block`):
snapshot the block, emit the diagnostic, run the correction step, append
the snapshot to the target list, re-prune dimensions. -/
def remove_unnecessary_dimensions (s : BaseAlgorithm) : BaseAlgorithm :=
  { s with dims := s.dims.filter (fun d => (unique_values s.df d).length != 1) }

def apply_and_save_block (s : BaseAlgorithm) (b : AlgoBlock)
    (blist : TargetList) (i : ℤ) : Except Failure BaseAlgorithm :=
  let sb := saved_of s b
  let s1 : BaseAlgorithm := { s with blockLog := s.blockLog ++ [entry_of s b i] }
  match correct_facts s1 b with
  | .error g => .error g
  | .ok s2 => .ok (remove_unnecessary_dimensions (appendBlock s2 blist sb))

/-- Block construction against the current state (embeds
`BaseAlgorithm.make_block`: aggregation over the current working
dataframe with the current global aggregate as parent). -/
def make_block (s : BaseAlgorithm) (ks : List (String × String))
    (bt : Option String) : AlgoBlock :=
  make_block_on s.df ks bt s.global_block

/-- The pre-selection loop of the constructor: each pre-selected key-set
is turned into a block against the current residual and applied-and-saved
into the pre-selected list, with the index incremented before use. -/
def applyPre : BaseAlgorithm → List InputBlock → ℤ → Except Failure BaseAlgorithm
  | s, [], _ => .ok s
  | s, ib :: rest, i =>
    let b := make_block s ib.keys ib.block_type
    match apply_and_save_block s b .preSelected (i + 1) with
    | .error g => .error g
    | .ok t => applyPre t rest (i + 1)

/-- Construction of the orchestrator (embeds `BaseAlgorithm.__init__`):
check the correction mode is recognized, build the initial global
aggregate and its snapshot, copy and prune the dimension list, then fold
the pre-selected blocks with indices starting at minus the list length
minus one and incremented before each application. -/
def BaseAlgorithm.init (p : AlgorithmParameters) (df : List Row) :
    Except Failure BaseAlgorithm :=
  let gb := make_global_block df
  let s0 : BaseAlgorithm :=
    { df := df
      correct_mode := p.correct_mode
      params := p
      ratio_to_initial := 1
      global_block := gb
      saved_global_block := SavedBlock.fromGlobal gb
      dims := p.dims
      pre_selected_blocks := []
      blocks := []
      blockLog := [] }
  if p.correct_mode ∈ CORRECT_MODES then
    applyPre (remove_unnecessary_dimensions s0) p.pre_selected_blocks
      (-(p.pre_selected_blocks.length : ℤ) - 1)
  else .error ⟨.assertModeMember, s0⟩

/-- Modelled from the spec: the Result Assembly handed to external
rendering (embeds the `Waterfall` value built at the end of `run`). -/
structure Waterfall where
  title : String
  dims : List String
  cur_label : String
  ref_label : String
  global_block : SavedBlock
  blocks : List SavedBlock
  first_blocks : List SavedBlock
deriving DecidableEq

/-- The terminal waterfall value of `run`. -/
def mkWaterfall (s : BaseAlgorithm) : Waterfall :=
  { title := s.params.waterfall_title
    dims := s.params.dims
    cur_label := "Actuel"
    ref_label := "Référence"
    global_block := s.saved_global_block
    blocks := s.blocks
    first_blocks := s.pre_selected_blocks }

/-- The discovery loop of `run`: at each index the pluggable strategy
either yields a block (which is applied-and-saved into the discovered
list) or signals exhaustion, which ends the loop normally. -/
def runLoop (f : ℕ → BaseAlgorithm → Option AlgoBlock) :
    ℕ → ℕ → BaseAlgorithm → Except Failure BaseAlgorithm
  | 0, _, s => .ok s
  | fuel + 1, i, s =>
    match f i s with
    | none => .ok s
    | some b =>
      match apply_and_save_block s b .discovered (i : ℤ) with
      | .error g => .error g
      | .ok t => runLoop f fuel (i + 1) t

/-- The run loop (embeds `BaseAlgorithm.run`): assert the discovered
list is empty, loop up to `max_block_number` times, and assemble the
waterfall.  The returned state models the Python object after the call
(the instance retains its mutated attributes). -/
def run (f : ℕ → BaseAlgorithm → Option AlgoBlock) (s : BaseAlgorithm) :
    Except Failure (BaseAlgorithm × Waterfall) :=
  if s.blocks = [] then
    match runLoop f s.params.max_block_number 0 s with
    | .error g => .error g
    | .ok t => .ok (t, mkWaterfall t)
  else .error ⟨.assertBlocksEmpty, s⟩

/-! Concrete data used by the witnesses: two rows over dimensions
Region and Product, total current revenue 10. -/

def rowEU : Row :=
  { dims := [ ("Region", "EU"), ("Product", "A") ]
    cur_revenue := 3
    ref_revenue := 2
    cur_profit := 1
    ref_profit := 1 }

def rowUS : Row :=
  { dims := [ ("Region", "US"), ("Product", "B") ]
    cur_revenue := 7
    ref_revenue := 8
    cur_profit := 2
    ref_profit := 1 }

def dfW : List Row := [rowEU, rowUS]

def pW : AlgorithmParameters :=
  { dims := [ "Region", "Product" ]
    pre_selected_blocks := []
    waterfall_title := "t"
    max_block_number := 10
    correct_mode := "DEL" }

def gbW : GlobalBlock := make_global_block dfW

def sW : BaseAlgorithm :=
  { df := dfW
    correct_mode := "DEL"
    params := pW
    ratio_to_initial := 1
    global_block := gbW
    saved_global_block := SavedBlock.fromGlobal gbW
    dims := [ "Region", "Product" ]
    pre_selected_blocks := []
    blocks := []
    blockLog := [] }

def bEU : AlgoBlock := make_block sW [ ("Region", "EU") ] none

def tEU : BaseAlgorithm := ((correct_facts sW bEU).toOption).getD sW

/-! Concrete inputs used by witnesses of failure behaviour. -/

def tApplied : BaseAlgorithm :=
  ((apply_and_save_block sW bEU TargetList.discovered 0).toOption).getD sW

def bBad : AlgoBlock := { bEU with parent := none }

def gBad : Failure :=
  match apply_and_save_block sW bBad TargetList.discovered 0 with
  | .error g => g
  | .ok _ => ⟨Err.assertBlockParent, sW⟩

/-! Concrete inputs for the run-loop and unimplemented-mode claims. -/

/-- A selection strategy that is immediately exhausted. -/
def findNone : ℕ → BaseAlgorithm → Option AlgoBlock := fun _ _ => none

/-- The orchestrator state after the first completed `run` with the
exhausted strategy. -/
def sAfterRun : BaseAlgorithm :=
  match run findNone sW with
  | .ok (t, _) => t
  | .error _ => sW

/-- A state whose discovered list is nonempty (an instance whose run
found a block). -/
def sUsed : BaseAlgorithm := { sW with blocks := [saved_of sW bEU] }

def sMUL : BaseAlgorithm := { sW with correct_mode := "MUL" }

def bMUL : AlgoBlock := make_block sMUL [ ("Region", "EU") ] none

/-! The correction-step chain used to state the ratio-composition
property. -/

/-- A sequence of correction steps (each step is `correct_facts` from the
source; a failure anywhere propagates). -/
def chain_correct : BaseAlgorithm → List AlgoBlock → Except Failure BaseAlgorithm
  | s, [] => .ok s
  | s, b :: bs =>
    match correct_facts s b with
    | .error g => .error g
    | .ok t => chain_correct t bs

/-- The same sequence of correction steps, also recording for every step
the quotient of the new Global Aggregate's current revenue by the old
one's. -/
def chain_step_revs : BaseAlgorithm → List AlgoBlock → Except Failure (BaseAlgorithm × List ℚ)
  | s, [] => .ok (s, [])
  | s, b :: bs =>
    match correct_facts s b with
    | .error g => .error g
    | .ok t =>
      match chain_step_revs t bs with
      | .error g => .error g
      | .ok (u, qs) =>
        .ok (u, (t.global_block.cur_revenue / s.global_block.cur_revenue) :: qs)

/-! Dimension pruning: no tracked dimension keeps exactly one distinct
value. -/

/-- No dimension in the tracked set has exactly one distinct value in the
current working table. -/
def dims_ok (s : BaseAlgorithm) : Prop :=
  ∀ d ∈ s.dims, (unique_values s.df d).length ≠ 1

instance (s : BaseAlgorithm) : Decidable (dims_ok s) := by
  unfold dims_ok
  exact List.decidableBAll _ _

/-! Pre-selected blocks: order, indices and residual chaining. -/

/-- Follows the spec's words (§4.2 step 6): the residual dataframe left
after removing, in input order, the rows of each pre-selected key-set. -/
def spec_residual (df : List Row) : List InputBlock → List Row
  | [] => df
  | ib :: rest => spec_residual (out_keys df ib.keys) rest

/-- Follows the spec's words (§4.2 step 6 and §4.3): each pre-selected
key-set is turned into a Block against the residual dataframe left by its
predecessors (parent: the residual's own global aggregate), snapshotted
with its contribution scaled by the cumulative ratio as captured before
the step, and the ratio is then multiplied by the step's
new-over-old current revenue. -/
def spec_pre_chain (df : List Row) (q : ℚ) : List InputBlock → List SavedBlock
  | [] => []
  | ib :: rest =>
    { SavedBlock.from_block (make_block_on df ib.keys ib.block_type (make_global_block df)) with
        contrib_bps :=
          (make_block_on df ib.keys ib.block_type (make_global_block df)).contrib_bps * q }
      :: spec_pre_chain (out_keys df ib.keys)
          (q * ((make_global_block (out_keys df ib.keys)).cur_revenue
                / (make_global_block df).cur_revenue)) rest

/-- The list of n consecutive integer indices starting just above i. -/
def idx_range (i : ℤ) : ℕ → List ℤ
  | 0 => []
  | n + 1 => (i + 1) :: idx_range (i + 1) n

/-! Concrete construction with one pre-selected block. -/

def pPre : AlgorithmParameters :=
  { dims := [ "Region", "Product" ]
    pre_selected_blocks := [ { keys := [ ("Region", "EU") ], block_type := none } ]
    waterfall_title := "t"
    max_block_number := 10
    correct_mode := "DEL" }

def sPre : BaseAlgorithm :=
  match BaseAlgorithm.init pPre dfW with
  | .ok s => s
  | .error _ => sW

/-! Characterization lemmas for the correction step and apply-and-save. -/

theorem correct_facts_ok {s t : BaseAlgorithm} {b : AlgoBlock}
    (h : correct_facts s b = .ok t) :
    b.parent = some s.global_block ∧ s.correct_mode = "DEL" ∧
    float_eq ((del_global s b).cur_revenue + b.cur_revenue) s.global_block.cur_revenue ∧
    float_eq ((del_global s b).ref_revenue + b.ref_revenue) s.global_block.ref_revenue ∧
    float_eq ((del_global s b).cur_profit + b.cur_profit) s.global_block.cur_profit ∧
    float_eq ((del_global s b).ref_profit + b.ref_profit) s.global_block.ref_profit ∧
    0 < s.global_block.cur_revenue ∧ 0 < (del_global s b).cur_revenue ∧
    t = del_state s b := by
  unfold correct_facts at h
  split_ifs at h with h1 h2 h3 h4 h5 h6 h7 h8
  injection h with h0
  exact ⟨h1, h2, h3, h4, h5, h6, h7, h8, h0.symm⟩

theorem correct_facts_err {s : BaseAlgorithm} {b : AlgoBlock} {g : Failure}
    (h : correct_facts s b = .error g) : g.st = s := by
  unfold correct_facts at h
  split_ifs at h <;> (cases h; rfl)

theorem apply_and_save_ok {s t : BaseAlgorithm} {b : AlgoBlock} {l : TargetList} {i : ℤ}
    (h : apply_and_save_block s b l i = .ok t) :
    correct_facts { s with blockLog := s.blockLog ++ [entry_of s b i] } b
        = .ok (del_state { s with blockLog := s.blockLog ++ [entry_of s b i] } b) ∧
    t = remove_unnecessary_dimensions
        (appendBlock (del_state { s with blockLog := s.blockLog ++ [entry_of s b i] } b)
          l (saved_of s b)) := by
  simp only [apply_and_save_block] at h
  rcases hcf : correct_facts { s with blockLog := s.blockLog ++ [entry_of s b i] } b with g | s2
  · rw [hcf] at h
    simp at h
  · rw [hcf] at h
    injection h with h0
    have h2 := (correct_facts_ok hcf).2.2.2.2.2.2.2.2
    subst h2
    exact ⟨rfl, h0.symm⟩

theorem apply_and_save_err {s : BaseAlgorithm} {b : AlgoBlock} {l : TargetList} {i : ℤ}
    {g : Failure}
    (h : apply_and_save_block s b l i = .error g) :
    g.st = { s with blockLog := s.blockLog ++ [entry_of s b i] } := by
  simp only [apply_and_save_block] at h
  rcases hcf : correct_facts { s with blockLog := s.blockLog ++ [entry_of s b i] } b with g2 | s2
  · rw [hcf] at h
    injection h with h0
    subst h0
    exact correct_facts_err hcf
  · rw [hcf] at h
    simp at h

/-- C1: for every correction step under the delete-matched-rows mode, the
new Global Aggregate is computed over the reduced working table, and its
current revenue plus the block's current revenue equals the old Global
Aggregate's current revenue within the relative floating-point tolerance,
and likewise for reference revenue, current profit and reference profit.
Any violation is fatal: by `correct_facts_ok`'s contrapositive, a step on
which a conservation check fails can only return a failure, which aborts
the run. -/
theorem C1_conservation (s : BaseAlgorithm) (b : AlgoBlock) (t : BaseAlgorithm)
    (h : correct_facts s b = .ok t) :
    t.df = out_block s.df b ∧
    t.global_block = make_global_block t.df ∧
    float_eq (t.global_block.cur_revenue + b.cur_revenue) s.global_block.cur_revenue ∧
    float_eq (t.global_block.ref_revenue + b.ref_revenue) s.global_block.ref_revenue ∧
    float_eq (t.global_block.cur_profit + b.cur_profit) s.global_block.cur_profit ∧
    float_eq (t.global_block.ref_profit + b.ref_profit) s.global_block.ref_profit := by
  obtain ⟨-, -, c1, c2, c3, c4, -, -, ht⟩ := correct_facts_ok h
  subst ht
  exact ⟨rfl, rfl, c1, c2, c3, c4⟩

/-- Witness for C1: a successful correction step on concrete data. -/
theorem C1_conservation_witness :
    tEU.df = out_block sW.df bEU ∧
    tEU.global_block = make_global_block tEU.df ∧
    float_eq (tEU.global_block.cur_revenue + bEU.cur_revenue) sW.global_block.cur_revenue ∧
    float_eq (tEU.global_block.ref_revenue + bEU.ref_revenue) sW.global_block.ref_revenue ∧
    float_eq (tEU.global_block.cur_profit + bEU.cur_profit) sW.global_block.cur_profit ∧
    float_eq (tEU.global_block.ref_profit + bEU.ref_profit) sW.global_block.ref_profit :=
  C1_conservation sW bEU tEU (by decide)

/-- C2: for every applied block, apply-and-save appends to the target
list exactly one Saved Block, whose scaled contribution equals the
block's raw contribution multiplied by `ratio_to_initial` as it stood
before this step's correction updated the ratio (so the first applied
block is scaled by 1.0, and a block applied after the revenue base
shrank to 0.7 of the original is scaled by 0.7). -/
theorem C2_scaled_contribution (s : BaseAlgorithm) (b : AlgoBlock) (l : TargetList)
    (i : ℤ) (t : BaseAlgorithm)
    (h : apply_and_save_block s b l i = .ok t) :
    targetOf t l = targetOf s l ++ [saved_of s b] ∧
    (saved_of s b).contrib_bps = b.contrib_bps * s.ratio_to_initial := by
  obtain ⟨-, ht⟩ := apply_and_save_ok h
  subst ht
  constructor
  · cases l <;>
      simp [targetOf, remove_unnecessary_dimensions, appendBlock, del_state]
  · rfl

/-- Witness for C2: a successful apply-and-save on concrete data, at the
initial ratio 1.0. -/
theorem C2_scaled_contribution_witness :
    targetOf tApplied TargetList.discovered
        = targetOf sW TargetList.discovered ++ [saved_of sW bEU] ∧
    (saved_of sW bEU).contrib_bps = bEU.contrib_bps * sW.ratio_to_initial :=
  C2_scaled_contribution sW bEU TargetList.discovered 0 tApplied (by decide)

/-- C9: in every successful correction step under the delete-matched-rows
mode, both the old and the new Global Aggregate current revenue are
strictly positive; by `correct_facts_ok`'s contrapositive a non-positive
value can only produce a failure, so the ratio division is guarded and is
never performed on a zero or negative revenue base. -/
theorem C9_positive_revenue_guard (s : BaseAlgorithm) (b : AlgoBlock) (t : BaseAlgorithm)
    (h : correct_facts s b = .ok t) :
    0 < s.global_block.cur_revenue ∧ 0 < t.global_block.cur_revenue := by
  obtain ⟨-, -, -, -, -, -, p1, p2, ht⟩ := correct_facts_ok h
  subst ht
  exact ⟨p1, p2⟩

/-- Witness for C9 at concrete data. -/
theorem C9_positive_revenue_guard_witness :
    0 < sW.global_block.cur_revenue ∧ 0 < tEU.global_block.cur_revenue :=
  C9_positive_revenue_guard sW bEU tEU (by decide)

/-- C10: apply-and-save is atomic with respect to failure of the
correction step: when it fails, the state carried by the propagating
failure (the Python object at raise time) still has the original
pre-selected list, discovered list, working table, Global Aggregate and
cumulative ratio, because the Saved Block is appended and the state
replaced only after every check has passed. -/
theorem C10_atomic_failure (s : BaseAlgorithm) (b : AlgoBlock) (l : TargetList)
    (i : ℤ) (g : Failure)
    (h : apply_and_save_block s b l i = .error g) :
    g.st.pre_selected_blocks = s.pre_selected_blocks ∧
    g.st.blocks = s.blocks ∧
    g.st.df = s.df ∧
    g.st.global_block = s.global_block ∧
    g.st.ratio_to_initial = s.ratio_to_initial := by
  rw [apply_and_save_err h]
  exact ⟨rfl, rfl, rfl, rfl, rfl⟩

/-- Witness for C10: a failing apply-and-save (stale parent) on concrete
data leaves every state component unchanged. -/
theorem C10_atomic_failure_witness :
    gBad.st.pre_selected_blocks = sW.pre_selected_blocks ∧
    gBad.st.blocks = sW.blocks ∧
    gBad.st.df = sW.df ∧
    gBad.st.global_block = sW.global_block ∧
    gBad.st.ratio_to_initial = sW.ratio_to_initial :=
  C10_atomic_failure sW bBad TargetList.discovered 0 gBad (by decide)

/-- C5 counterexample: the claim says a second `run()` on an instance
whose `run()` has completed fails before doing further work, for every
such instance.  With an immediately exhausted strategy the first run
completes with zero discovered blocks, so the `assert(not(self.blocks))`
guard does not trip: the second invocation on the completed instance
succeeds again instead of failing. -/
theorem C5_counterexample :
    run findNone sW = .ok (sAfterRun, mkWaterfall sAfterRun) ∧
    run findNone sAfterRun = .ok (sAfterRun, mkWaterfall sAfterRun) := by
  constructor
  · decide
  · decide

/-- C5 amended: a second `run()` fails fast exactly when the previous run
left the discovered-blocks list nonempty (found at least one block); the
guard is the nonemptiness assertion, and the failure carries the state
untouched, before any further work. -/
theorem C5_single_use_guard (f : ℕ → BaseAlgorithm → Option AlgoBlock)
    (s : BaseAlgorithm) (h : s.blocks ≠ []) :
    run f s = .error ⟨Err.assertBlocksEmpty, s⟩ := by
  unfold run
  split_ifs with h1
  · exact absurd h1 h
  · rfl

/-- Witness for the amended C5: an instance with one discovered block
refuses to run again. -/
theorem C5_single_use_guard_witness :
    run findNone sUsed = .error ⟨Err.assertBlocksEmpty, sUsed⟩ :=
  C5_single_use_guard findNone sUsed (by decide)

/-- C6: the claim says a correction mode other than delete-matched-rows
raises an explicit not-implemented failure naming the mode.  The code
indeed never silently no-ops, but the line `raise NotImplemented(...)`
calls the non-callable `NotImplemented` constant, so what Python actually
raises is a `TypeError` whose message ("NotImplementedType object is not
callable") does not contain the mode name.  Evaluated at mode "MUL". -/
theorem C6_unimplemented_mode_bug :
    correct_facts sMUL bMUL = .error ⟨Err.typeErrorNotImplementedNotCallable, sMUL⟩ ∧
    ¬ ("MUL".toList <:+: (Err.message Err.typeErrorNotImplementedNotCallable).toList) := by
  constructor
  · decide
  · decide

/-- C3: after n correction steps, `ratio_to_initial` equals its starting
value (1.0 at construction) multiplied by the product over those n steps
of each step's new-global-over-old-global current revenue. -/
theorem C3_ratio_product (s : BaseAlgorithm) (bs : List AlgoBlock)
    (u : BaseAlgorithm) (qs : List ℚ)
    (h : chain_step_revs s bs = .ok (u, qs)) :
    chain_correct s bs = .ok u ∧
    u.ratio_to_initial = s.ratio_to_initial * qs.prod := by
  induction bs generalizing s u qs with
  | nil =>
    simp only [chain_step_revs] at h
    injection h with h0
    obtain ⟨h1, h2⟩ := Prod.mk.injEq .. ▸ h0
    subst h1
    subst h2
    simp [chain_correct]
  | cons b bs ih =>
    simp only [chain_step_revs] at h
    rcases hcf : correct_facts s b with g | t
    · rw [hcf] at h
      simp at h
    · simp only [hcf] at h
      rcases hch : chain_step_revs t bs with g | p
      · rw [hch] at h
        simp at h
      · obtain ⟨u2, qs2⟩ := p
        simp only [hch] at h
        injection h with h0
        obtain ⟨h1, h2⟩ := Prod.mk.injEq .. ▸ h0
        subst h1
        subst h2
        obtain ⟨hcc, hr⟩ := ih t u2 qs2 hch
        constructor
        · simp only [chain_correct]
          rw [hcf]
          exact hcc
        · rw [hr]
          have ht := (correct_facts_ok hcf).2.2.2.2.2.2.2.2
          subst ht
          simp only [del_state, List.prod_cons]
          ring

/-- Witness for C3: one concrete correction step from the initial ratio
1.0, with step quotient 7/10. -/
theorem C3_ratio_product_witness :
    chain_correct sW [bEU] = .ok tEU ∧
    tEU.ratio_to_initial = sW.ratio_to_initial * ([ (7 : ℚ) / 10 ]).prod :=
  C3_ratio_product sW [bEU] tEU [ (7 : ℚ) / 10 ] (by decide)

/-! The run loop: block-count bound and exhaustion behaviour. -/

theorem apply_discovered_blocks {s t : BaseAlgorithm} {b : AlgoBlock} {i : ℤ}
    (h : apply_and_save_block s b .discovered i = .ok t) :
    t.blocks = s.blocks ++ [saved_of s b] := by
  obtain ⟨-, ht⟩ := apply_and_save_ok h
  subst ht
  simp [remove_unnecessary_dimensions, appendBlock, del_state]

theorem runLoop_spec (f : ℕ → BaseAlgorithm → Option AlgoBlock) :
    ∀ (fuel i : ℕ) (s t : BaseAlgorithm),
    runLoop f fuel i s = .ok t → i = s.blocks.length →
    t.blocks.length ≤ s.blocks.length + fuel ∧
    (t.blocks.length < s.blocks.length + fuel → f t.blocks.length t = none) := by
  intro fuel
  induction fuel with
  | zero =>
    intro i s t h hi
    simp only [runLoop] at h
    injection h with h0
    subst h0
    exact ⟨Nat.le_refl _, fun hlt => absurd hlt (by omega)⟩
  | succ n ih =>
    intro i s t h hi
    simp only [runLoop] at h
    rcases hf : f i s with _ | b
    · simp only [hf] at h
      injection h with h0
      subst h0
      refine ⟨by omega, fun _ => ?_⟩
      rw [← hi]
      exact hf
    · simp only [hf] at h
      rcases ha : apply_and_save_block s b .discovered (i : ℤ) with g | s2
      · rw [ha] at h
        simp at h
      · simp only [ha] at h
        have hlen : s2.blocks = s.blocks ++ [saved_of s b] := apply_discovered_blocks ha
        have hi2 : i + 1 = s2.blocks.length := by
          rw [hlen, List.length_append, List.length_singleton, ← hi]
        obtain ⟨le1, h2⟩ := ih (i + 1) s2 t h hi2
        rw [hlen, List.length_append, List.length_singleton] at le1 h2
        exact ⟨by omega, fun hlt => h2 (by omega)⟩

/-- C4: a completed `run()` with `max_block_number = N` has appended at
most N blocks to the discovered list, and it stopped with fewer than N
blocks exactly when the selection strategy signalled that no block was
found at the next index — which terminates the loop normally (the run
still returns a waterfall, not a failure). -/
theorem C4_run_bound (f : ℕ → BaseAlgorithm → Option AlgoBlock)
    (s t : BaseAlgorithm) (w : Waterfall)
    (h : run f s = .ok (t, w)) :
    t.blocks.length ≤ s.params.max_block_number ∧
    (t.blocks.length < s.params.max_block_number → f t.blocks.length t = none) := by
  unfold run at h
  split_ifs at h with hb
  rcases hl : runLoop f s.params.max_block_number 0 s with g | t2
  · rw [hl] at h
    simp at h
  · simp only [hl] at h
    injection h with h0
    obtain ⟨h1, h2⟩ := Prod.mk.injEq .. ▸ h0
    subst h1
    have hz : (0 : ℕ) = s.blocks.length := by rw [hb]; rfl
    have := runLoop_spec f s.params.max_block_number 0 s t2 hl hz
    rw [← hz] at this
    simpa using this

/-- Witness for C4: a run with an immediately exhausted strategy stops
with zero discovered blocks, below the limit of 10. -/
theorem C4_run_bound_witness :
    sAfterRun.blocks.length ≤ sW.params.max_block_number ∧
    (sAfterRun.blocks.length < sW.params.max_block_number →
      findNone sAfterRun.blocks.length sAfterRun = none) :=
  C4_run_bound findNone sW sAfterRun (mkWaterfall sAfterRun) (by decide)

theorem dims_ok_prune (s : BaseAlgorithm) :
    dims_ok (remove_unnecessary_dimensions s) := by
  intro d hd
  simp only [remove_unnecessary_dimensions, List.mem_filter, bne_iff_ne, ne_eq,
    decide_not] at hd
  simpa using hd.2

theorem applyPre_dims : ∀ (ibs : List InputBlock) (s : BaseAlgorithm) (i : ℤ)
    (t : BaseAlgorithm), applyPre s ibs i = .ok t → dims_ok s → dims_ok t := by
  intro ibs
  induction ibs with
  | nil =>
    intro s i t h hs
    simp only [applyPre] at h
    injection h with h0
    subst h0
    exact hs
  | cons ib rest ih =>
    intro s i t h hs
    simp only [applyPre] at h
    rcases ha : apply_and_save_block s (make_block s ib.keys ib.block_type)
        .preSelected (i + 1) with g | s2
    · rw [ha] at h
      simp at h
    · simp only [ha] at h
      apply ih s2 (i + 1) t h
      obtain ⟨-, h2⟩ := apply_and_save_ok ha
      rw [h2]
      exact dims_ok_prune _

/-- C7: after construction and after every applied block's correction
step, no dimension remaining in the tracked set has exactly one distinct
value in the current working table; pruning is a pure filter fully
re-evaluated on the current snapshot as the last action of construction
and of every apply-and-save. -/
theorem C7_no_singleton_dimensions (p : AlgorithmParameters) (d0 : List Row)
    (s : BaseAlgorithm) (u : BaseAlgorithm) (b : AlgoBlock) (l : TargetList)
    (i : ℤ) (t : BaseAlgorithm) :
    (BaseAlgorithm.init p d0 = .ok s → dims_ok s) ∧
    (apply_and_save_block u b l i = .ok t → dims_ok t) := by
  constructor
  · intro h
    simp only [BaseAlgorithm.init] at h
    split_ifs at h with hm
    exact applyPre_dims _ _ _ _ h (dims_ok_prune _)
  · intro h
    obtain ⟨-, h2⟩ := apply_and_save_ok h
    rw [h2]
    exact dims_ok_prune _

/-- Witness for C7: the invariant holds on the concretely constructed
orchestrator and after a concrete applied block. -/
theorem C7_no_singleton_dimensions_witness : dims_ok sW ∧ dims_ok tApplied :=
  ⟨(C7_no_singleton_dimensions pW dfW sW sW bEU TargetList.discovered 0 tApplied).1
      (by decide),
   (C7_no_singleton_dimensions pW dfW sW sW bEU TargetList.discovered 0 tApplied).2
      (by decide)⟩

theorem idx_range_eq : ∀ (n : ℕ) (i : ℤ),
    idx_range i n = (List.range n).map (fun k : ℕ => i + 1 + (k : ℤ)) := by
  intro n
  induction n with
  | zero => intro i; rfl
  | succ m ih =>
    intro i
    simp only [idx_range, ih, List.range_succ_eq_map, List.map_cons, List.map_map]
    congr 1
    · omega
    · apply List.map_congr_left
      intro k hk
      simp only [Function.comp_apply]
      push_cast
      ring

theorem applyPre_spec : ∀ (ibs : List InputBlock) (s : BaseAlgorithm) (i : ℤ)
    (t : BaseAlgorithm),
    s.global_block = make_global_block s.df →
    applyPre s ibs i = .ok t →
    t.pre_selected_blocks
        = s.pre_selected_blocks ++ spec_pre_chain s.df s.ratio_to_initial ibs ∧
    t.df = spec_residual s.df ibs ∧
    t.blockLog.map LogEntry.index
        = s.blockLog.map LogEntry.index ++ idx_range i ibs.length := by
  intro ibs
  induction ibs with
  | nil =>
    intro s i t hg h
    simp only [applyPre] at h
    injection h with h0
    subst h0
    simp [spec_pre_chain, spec_residual, idx_range]
  | cons ib rest ih =>
    intro s i t hg h
    simp only [applyPre] at h
    rcases ha : apply_and_save_block s (make_block s ib.keys ib.block_type)
        .preSelected (i + 1) with g | s2
    · rw [ha] at h
      simp at h
    · simp only [ha] at h
      obtain ⟨-, h2⟩ := apply_and_save_ok ha
      have hpre : s2.pre_selected_blocks
          = s.pre_selected_blocks ++ [saved_of s (make_block s ib.keys ib.block_type)] := by
        rw [h2]
        rfl
      have hdf : s2.df = out_keys s.df ib.keys := by
        rw [h2]
        rfl
      have hratio : s2.ratio_to_initial
          = s.ratio_to_initial * ((make_global_block (out_keys s.df ib.keys)).cur_revenue
              / s.global_block.cur_revenue) := by
        rw [h2]
        rfl
      have hlog : s2.blockLog
          = s.blockLog ++ [entry_of s (make_block s ib.keys ib.block_type) (i + 1)] := by
        rw [h2]
        rfl
      have hgb : s2.global_block = make_global_block s2.df := by
        rw [h2]
        rfl
      obtain ⟨e1, e2, e3⟩ := ih s2 (i + 1) t hgb h
      refine ⟨?_, ?_, ?_⟩
      · rw [e1, hpre, hdf, hratio, hg, List.append_assoc]
        rfl
      · rw [e2, hdf]
        rfl
      · rw [e3, hlog]
        simp only [List.map_append, List.map_cons, List.map_nil, List.append_assoc,
          List.singleton_append, List.length_cons]
        rfl

/-- C8: pre-selected blocks are applied in the supplied order, with
diagnostic indices running consecutively through negative values ending
at −1 (so discovery-loop indices continue from 0); the pre-selected
output list equals, element by element and in the supplied order, the
chain in which each block is constructed against — and corrected into —
the residual dataframe left by its predecessors, with the cumulative
ratio threaded through from its initial value 1.0. -/
theorem C8_pre_selected (p : AlgorithmParameters) (d0 : List Row) (s : BaseAlgorithm)
    (h : BaseAlgorithm.init p d0 = .ok s) :
    s.pre_selected_blocks = spec_pre_chain d0 1 p.pre_selected_blocks ∧
    s.df = spec_residual d0 p.pre_selected_blocks ∧
    s.blockLog.map LogEntry.index
        = (List.range p.pre_selected_blocks.length).map
            (fun k : ℕ => (k : ℤ) - (p.pre_selected_blocks.length : ℤ)) := by
  simp only [BaseAlgorithm.init] at h
  split_ifs at h with hm
  obtain ⟨e1, e2, e3⟩ := applyPre_spec p.pre_selected_blocks _
    (-(p.pre_selected_blocks.length : ℤ) - 1) s rfl h
  refine ⟨?_, ?_, ?_⟩
  · rw [e1]
    rfl
  · rw [e2]
    rfl
  · rw [e3]
    show [] ++ idx_range (-(p.pre_selected_blocks.length : ℤ) - 1)
        p.pre_selected_blocks.length = _
    rw [List.nil_append, idx_range_eq]
    apply List.map_congr_left
    intro k hk
    omega

/-- Witness for C8: construction with one concrete pre-selected key-set
(index −1, block corrected into the full table's residual). -/
theorem C8_pre_selected_witness :
    sPre.pre_selected_blocks = spec_pre_chain dfW 1 pPre.pre_selected_blocks ∧
    sPre.df = spec_residual dfW pPre.pre_selected_blocks ∧
    sPre.blockLog.map LogEntry.index
        = (List.range pPre.pre_selected_blocks.length).map
            (fun k : ℕ => (k : ℤ) - (pPre.pre_selected_blocks.length : ℤ)) :=
  C8_pre_selected pPre dfW sPre (by decide)

